import Mathlib

/-!
# Verification of the go-audiosprite sprite-assembly core

This file is a shallow embedding, in Lean 4, of the sprite-assembly core of
the `go-audiosprite` command-line tool, together with proofs of the
behavioural properties claimed by its specification.

The repository contains two variants of the tool:

* the plain variant (`src/main.go`, first file): decodes every input WAV,
  rejects sample-rate mismatches outright, concatenates the PCM data,
  and records a spritemap entry per input;
* the resampling variant (second file): on a sample-rate mismatch it
  shells out to ffmpeg to produce a resampled temporary WAV file,
  registers `defer os.Remove(tmp)`, and re-decodes the temporary file.

Section 1 embeds the data model and the helper `fileKey` (shared verbatim
by both variants).  Section 2 embeds the plain variant's assembly loop.
Section 3 embeds the temporary-file lifecycle of the resampling variant,
including the Go semantics that `log.Fatalf` calls `os.Exit`, which does
NOT run deferred functions.  Theorems follow the definitions.

Modelling conventions:

* Go strings are `List Char`; Go `int` sample data is `List Int`.
* `float64` second offsets are modelled as exact rationals (`ℚ`); every
  offset in the program is a single division `cursor / rate` of exactly
  represented integers, so equalities between offsets computed from equal
  cursors hold in `float64` as well.
* Inputs enter the embedding already decoded (a path paired with the
  decoded buffer), since container decoding is an external capability;
  per-file open/decode failures of the plain variant abort the run before
  any of the behaviour under study and are outside the embedded core.
* `log.Fatalf` (abort the whole run) is modelled as `Except.error`.
-/

/-- Go `audio.Format`: the format metadata carried by a decoded buffer. -/
structure AudioFormat where
  numChannels : Nat
  sampleRate : Nat
  deriving DecidableEq, Inhabited

/-- Go `audio.IntBuffer`: format metadata, interleaved samples, bit depth. -/
structure IntBuffer where
  format : AudioFormat
  data : List Int
  sourceBitDepth : Nat
  deriving DecidableEq, Inhabited

/-- Go `SpriteMapEntry` (fields `Start`, `End`, `Loop`): one timeline entry.
Second offsets are modelled as exact rationals. -/
structure SpriteMapEntry where
  Start : ℚ
  End : ℚ
  Loop : Bool
  deriving DecidableEq, Inhabited

/-- Model of Go `filepath.Base` for the paths the tool handles (no trailing
separator): the final path component, i.e. everything after the last `/`. -/
def baseName (s : List Char) : List Char :=
  (s.reverse.takeWhile (fun c => c ≠ '/')).reverse

/-- Model of Go `filepath.Ext`: the suffix of the final path component that
starts at its last dot (dot included); `[]` when the component has no dot. -/
def extName (s : List Char) : List Char :=
  let rb := s.reverse.takeWhile (fun c => c ≠ '/')
  if rb.contains '.' then '.' :: (rb.takeWhile (fun c => c ≠ '.')).reverse else []

/-- Go `fileKey` (both variants): `base := filepath.Base(path); ext :=
filepath.Ext(base); return base[:len(base)-len(ext)]`. -/
def fileKey (s : List Char) : List Char :=
  let base := baseName s
  let ext := extName s
  base.take (base.length - ext.length)

/-- Assignment `m[k] = v` on a Go map, modelled on an association list:
overwrite the binding of `k` in place if present, otherwise append it. -/
def mapSet (m : List (List Char × SpriteMapEntry)) (k : List Char)
    (v : SpriteMapEntry) : List (List Char × SpriteMapEntry) :=
  match m with
  | [] => [(k, v)]
  | (k', v') :: rest =>
      if k' = k then (k, v) :: rest else (k', v') :: mapSet rest k v

/-- Lookup on the association-list model of a Go map. -/
def mapFind (m : List (List Char × SpriteMapEntry)) (k : List Char) :
    Option SpriteMapEntry :=
  match m with
  | [] => none
  | (k', v') :: rest => if k' = k then some v' else mapFind rest k

/-- The errors on which the plain variant's run aborts inside the embedded
core.  `noClips` models the `flag.Usage(); os.Exit(1)` rejection of an empty
input list (the spec's `AssemblyError{NoClips}`); `rateMismatch` models the
`log.Fatalf("Sample rate mismatch: ...")` abort, carrying the offending
input's path, its rate, and the expected (first clip's) rate. -/
inductive AssemblyError where
  | noClips : AssemblyError
  | rateMismatch (infile : List Char) (got expected : Nat) : AssemblyError
  deriving DecidableEq

/-- The mutable state of the plain variant's assembly loop: `outBuf` (nil
before the first clip), `sampleRate`, `currentSample`, and `spritemap`.
`records` is a ghost trace of the spritemap writes in input order, added so
that order-sensitive properties can be stated; it does not influence any
computed field. -/
structure LoopState where
  outBuf : Option IntBuffer
  sampleRate : Nat
  currentSample : Nat
  spritemap : List (List Char × SpriteMapEntry)
  records : List (List Char × SpriteMapEntry)
  deriving DecidableEq

/-- One iteration of the plain variant's loop body (`src/main.go` lines
85–106) on an already-decoded input `(infile, buf)`:

* if `outBuf` is nil, adopt the clip's format, bit depth and sample rate;
* otherwise abort on a sample-rate mismatch (there is no channel check);
* compute `start`, append `buf.Data`, advance `currentSample` by
  `len(buf.Data) / buf.Format.NumChannels` (integer division), compute
  `end`, and record the entry under `fileKey infile` with
  `Loop := loops[filepath.Base(infile)]`. -/
def processClip (loops : List (List Char)) (st : LoopState)
    (input : List Char × IntBuffer) : Except AssemblyError LoopState :=
  let infile := input.1
  let buf := input.2
  let step : IntBuffer → Nat → Except AssemblyError LoopState := fun ob sr =>
    let start : ℚ := (st.currentSample : ℚ) / (sr : ℚ)
    let ob' : IntBuffer := { ob with data := ob.data ++ buf.data }
    let cur' : Nat := st.currentSample + buf.data.length / buf.format.numChannels
    let e : SpriteMapEntry :=
      { Start := start
        End := ((cur' : ℚ) / (sr : ℚ))
        Loop := loops.contains (baseName infile) }
    let key := fileKey infile
    Except.ok
      { outBuf := some ob'
        sampleRate := sr
        currentSample := cur'
        spritemap := mapSet st.spritemap key e
        records := st.records ++ [(key, e)] }
  match st.outBuf with
  | none =>
      step { format := buf.format, data := [], sourceBitDepth := buf.sourceBitDepth }
        buf.format.sampleRate
  | some ob =>
      if buf.format.sampleRate ≠ st.sampleRate then
        Except.error (AssemblyError.rateMismatch infile buf.format.sampleRate st.sampleRate)
      else
        step ob st.sampleRate

/-- The plain variant's `for _, infile := range inputs` loop, folded over the
already-decoded inputs; a `log.Fatalf` (modelled as `Except.error`) aborts
the remaining iterations. -/
def loopClips (loops : List (List Char)) (st : LoopState) :
    List (List Char × IntBuffer) → Except AssemblyError LoopState
  | [] => Except.ok st
  | x :: xs =>
      match processClip loops st x with
      | Except.error e => Except.error e
      | Except.ok st' => loopClips loops st' xs

/-- The observable result of a successful run of the plain variant: the
final output buffer's fields, the final cursor, the spritemap, the ghost
record trace, and the three metadata arguments the program passes to
`wav.NewEncoder(wf, sampleRate, outBuf.SourceBitDepth,
outBuf.Format.NumChannels, 1)` at line 115. -/
structure RunResult where
  outData : List Int
  outFormat : AudioFormat
  outSourceBitDepth : Nat
  sampleRate : Nat
  currentSample : Nat
  spritemap : List (List Char × SpriteMapEntry)
  records : List (List Char × SpriteMapEntry)
  encSampleRate : Nat
  encBitDepth : Nat
  encNumChannels : Nat
  deriving DecidableEq

/-- The plain variant's `main`, restricted to the embedded core: reject an
empty input list before the loop runs (`src/main.go` lines 48–51, modelled
as `AssemblyError.noClips`), fold the loop over the inputs, then read off
the encoder's metadata arguments.  The `none` branch after the loop is
unreachable for a non-empty input list (the Go program would dereference a
nil pointer there); it is mapped to `noClips` as well. -/
def runSprite (inputs : List (List Char × IntBuffer))
    (loops : List (List Char)) : Except AssemblyError RunResult :=
  if inputs.isEmpty then Except.error AssemblyError.noClips
  else
    match loopClips loops
        { outBuf := none, sampleRate := 0, currentSample := 0,
          spritemap := [], records := [] } inputs with
    | Except.error e => Except.error e
    | Except.ok st =>
        match st.outBuf with
        | none => Except.error AssemblyError.noClips
        | some ob =>
            Except.ok
              { outData := ob.data
                outFormat := ob.format
                outSourceBitDepth := ob.sourceBitDepth
                sampleRate := st.sampleRate
                currentSample := st.currentSample
                spritemap := st.spritemap
                records := st.records
                encSampleRate := st.sampleRate
                encBitDepth := ob.sourceBitDepth
                encNumChannels := ob.format.numChannels }

/-- The number of frames (per-channel samples) a clip contributes to the
cursor: `len(buf.Data) / buf.Format.NumChannels`, Go integer division. -/
def frameCount (b : IntBuffer) : Nat :=
  b.data.length / b.format.numChannels

/-- The cursor value just before the `j`-th clip of the input list is
processed: the sum of the frame counts of the clips before it. -/
def cursorBefore (inputs : List (List Char × IntBuffer)) (j : Nat) : Nat :=
  ((inputs.take j).map (fun x => frameCount x.2)).sum

/-- The sample rate the run adopts from the first clip (`0` for an empty
list, which the program rejects first). -/
def firstRate (inputs : List (List Char × IntBuffer)) : Nat :=
  match inputs with
  | [] => 0
  | x :: _ => x.2.format.sampleRate

/-! ## Closed form of the assembly loop -/

/-- The spritemap writes the loop performs, in input order, when every clip
matches the reference rate: starting from cursor `cur` at rate `sr`, one
record per clip with `Start`/`End` read off the running cursor. -/
def mkRecords (loops : List (List Char)) (sr : Nat) :
    Nat → List (List Char × IntBuffer) → List (List Char × SpriteMapEntry)
  | _, [] => []
  | cur, x :: xs =>
      (fileKey x.1,
        { Start := (cur : ℚ) / (sr : ℚ)
          End := ((cur + frameCount x.2 : Nat) : ℚ) / (sr : ℚ)
          Loop := loops.contains (baseName x.1) }) ::
        mkRecords loops sr (cur + frameCount x.2) xs

/-- Fold a list of Go-map assignments over a map, left to right. -/
def mapSets (m : List (List Char × SpriteMapEntry)) :
    List (List Char × SpriteMapEntry) → List (List Char × SpriteMapEntry)
  | [] => m
  | (k, v) :: rest => mapSets (mapSet m k v) rest

theorem mkRecords_length (loops : List (List Char)) (sr : Nat)
    (cur : Nat) (xs : List (List Char × IntBuffer)) :
    (mkRecords loops sr cur xs).length = xs.length := by
  induction xs generalizing cur with
  | nil => rfl
  | cons x xs ih => simp [mkRecords, ih]

/-- When every remaining clip matches the reference rate, the loop succeeds
and its final state is given in closed form: output data is the
concatenation, the cursor advances by the total frame count, and the
spritemap receives the records of `mkRecords` in order. -/
theorem loopClips_ok (loops : List (List Char)) (ob : IntBuffer)
    (sr cur : Nat) (sm recs : List (List Char × SpriteMapEntry))
    (xs : List (List Char × IntBuffer))
    (h : ∀ x ∈ xs, x.2.format.sampleRate = sr) :
    loopClips loops
        { outBuf := some ob, sampleRate := sr, currentSample := cur,
          spritemap := sm, records := recs } xs =
      Except.ok
        { outBuf := some { ob with data := ob.data ++ (xs.map (fun x => x.2.data)).flatten }
          sampleRate := sr
          currentSample := cur + (xs.map (fun x => frameCount x.2)).sum
          spritemap := mapSets sm (mkRecords loops sr cur xs)
          records := recs ++ mkRecords loops sr cur xs } := by
  induction xs generalizing ob cur sm recs with
  | nil => simp [loopClips, mkRecords, mapSets]
  | cons x xs ih =>
      have hx : x.2.format.sampleRate = sr := h x (List.mem_cons_self x xs)
      have hxs : ∀ y ∈ xs, y.2.format.sampleRate = sr :=
        fun y hy => h y (List.mem_cons_of_mem x hy)
      simp only [loopClips, processClip, hx, ne_eq, not_true_eq_false, if_false,
        ite_false]
      rw [ih _ _ _ _ hxs]
      simp [mkRecords, mapSets, frameCount, List.append_assoc, Nat.add_assoc]

/-- If the loop starts with a materialized output buffer and completes
without aborting, every clip it consumed matched the reference rate. -/
theorem loopClips_ok_rates (loops : List (List Char))
    (xs : List (List Char × IntBuffer)) (st st' : LoopState) (ob : IntBuffer)
    (hb : st.outBuf = some ob)
    (h : loopClips loops st xs = Except.ok st') :
    ∀ x ∈ xs, x.2.format.sampleRate = st.sampleRate := by
  induction xs generalizing st ob with
  | nil => intro x hx; exact absurd hx (List.not_mem_nil x)
  | cons x xs ih =>
      intro y hy
      rw [loopClips] at h
      rcases hst : processClip loops st x with e | st₁
      · rw [hst] at h; exact absurd h (by simp)
      · rw [hst] at h
        rw [processClip, hb] at hst
        by_cases hr : x.2.format.sampleRate = st.sampleRate
        · rcases List.mem_cons.mp hy with rfl | hy'
          · exact hr
          · have hb₁ : st₁.outBuf = some { ob with data := ob.data ++ x.2.data } := by
              simp only [hr, ne_eq, not_true_eq_false, if_false, ite_false] at hst
              cases hst; rfl
            have hsr₁ : st₁.sampleRate = st.sampleRate := by
              simp only [hr, ne_eq, not_true_eq_false, if_false, ite_false] at hst
              cases hst; rfl
            rw [← hsr₁]
            exact ih st₁ _ hb₁ h y hy'
        · simp only [ne_eq, hr, not_false_eq_true, if_true, ite_true] at hst
          exact absurd hst (by simp)

/-- Closed form of a successful run: on a non-empty input list whose clips
all carry the first clip's sample rate, `runSprite` succeeds and every field
of the result is given explicitly. -/
theorem runSprite_ok (loops : List (List Char)) (x : List Char × IntBuffer)
    (xs : List (List Char × IntBuffer))
    (h : ∀ y ∈ xs, y.2.format.sampleRate = x.2.format.sampleRate) :
    runSprite (x :: xs) loops =
      Except.ok
        { outData := ((x :: xs).map (fun y => y.2.data)).flatten
          outFormat := x.2.format
          outSourceBitDepth := x.2.sourceBitDepth
          sampleRate := x.2.format.sampleRate
          currentSample := ((x :: xs).map (fun y => frameCount y.2)).sum
          spritemap := mapSets [] (mkRecords loops x.2.format.sampleRate 0 (x :: xs))
          records := mkRecords loops x.2.format.sampleRate 0 (x :: xs)
          encSampleRate := x.2.format.sampleRate
          encBitDepth := x.2.sourceBitDepth
          encNumChannels := x.2.format.numChannels } := by
  rw [runSprite]
  simp only [List.isEmpty_cons, Bool.false_eq_true, if_false]
  rw [loopClips]
  simp only [processClip]
  rw [loopClips_ok loops _ _ _ _ _ xs h]
  simp [mkRecords, mapSets, frameCount]

/-- Inversion: a successful run means the input list was non-empty and every
clip's sample rate equalled the first clip's. -/
theorem runSprite_ok_inv (inputs : List (List Char × IntBuffer))
    (loops : List (List Char)) (r : RunResult)
    (h : runSprite inputs loops = Except.ok r) :
    inputs ≠ [] ∧ ∀ y ∈ inputs, y.2.format.sampleRate = firstRate inputs := by
  match inputs with
  | [] => exact absurd h (by simp [runSprite])
  | x :: xs =>
      refine ⟨by simp, ?_⟩
      rw [runSprite] at h
      simp only [List.isEmpty_cons, Bool.false_eq_true, if_false] at h
      rw [loopClips] at h
      simp only [processClip] at h
      set st₁ : LoopState :=
        { outBuf := some { format := x.2.format, data := [] ++ x.2.data,
                           sourceBitDepth := x.2.sourceBitDepth }
          sampleRate := x.2.format.sampleRate
          currentSample := 0 + x.2.data.length / x.2.format.numChannels
          spritemap := mapSet [] (fileKey x.1)
            { Start := ((0 : Nat) : ℚ) / (x.2.format.sampleRate : ℚ)
              End := ((0 + x.2.data.length / x.2.format.numChannels : Nat) : ℚ) /
                (x.2.format.sampleRate : ℚ)
              Loop := loops.contains (baseName x.1) }
          records := [] ++ [(fileKey x.1,
            { Start := ((0 : Nat) : ℚ) / (x.2.format.sampleRate : ℚ)
              End := ((0 + x.2.data.length / x.2.format.numChannels : Nat) : ℚ) /
                (x.2.format.sampleRate : ℚ)
              Loop := loops.contains (baseName x.1) })] } with hst₁
      intro y hy
      rcases List.mem_cons.mp hy with rfl | hy'
      · simp [firstRate]
      · rcases hlc : loopClips loops st₁ xs with e | st'
        · rw [hlc] at h; exact absurd h (by simp)
        · have := loopClips_ok_rates loops xs st₁ st' _ (by rw [hst₁]) hlc y hy'
          simpa [hst₁, firstRate] using this

theorem cursorBefore_zero (inputs : List (List Char × IntBuffer)) :
    cursorBefore inputs 0 = 0 := rfl

theorem cursorBefore_length (inputs : List (List Char × IntBuffer)) :
    cursorBefore inputs inputs.length = (inputs.map (fun x => frameCount x.2)).sum := by
  simp [cursorBefore]

/-- The `j`-th record written by the loop, read off in closed form: its key
is the `j`-th input's `fileKey`, its `Start` and `End` are the cursor before
and after that clip divided by the reference rate, and its `Loop` flag tests
the input's base filename against the loop set. -/
theorem mkRecords_getD (loops : List (List Char)) (sr : Nat)
    (xs : List (List Char × IntBuffer)) (cur j : Nat) (hj : j < xs.length)
    (d : List Char × SpriteMapEntry) (d' : List Char × IntBuffer) :
    (mkRecords loops sr cur xs).getD j d =
      (fileKey (xs.getD j d').1,
        { Start := ((cur + cursorBefore xs j : Nat) : ℚ) / (sr : ℚ)
          End := ((cur + cursorBefore xs (j + 1) : Nat) : ℚ) / (sr : ℚ)
          Loop := loops.contains (baseName (xs.getD j d').1) }) := by
  induction xs generalizing j cur with
  | nil => exact absurd hj (by simp)
  | cons x xs ih =>
      cases j with
      | zero => simp [mkRecords, cursorBefore, frameCount]
      | succ j =>
          have hj' : j < xs.length := by simpa using hj
          simp only [mkRecords, List.getD_cons_succ]
          rw [ih (cur + frameCount x.2) j hj']
          have h1 : ∀ k : Nat, cur + frameCount x.2 + cursorBefore xs k =
              cur + cursorBefore (x :: xs) (k + 1) := by
            intro k
            simp [cursorBefore, List.take_succ_cons, Nat.add_assoc]
          rw [h1 j, h1 (j + 1)]

/-! ## Claim theorems for the plain variant -/

/-- C1: for every non-empty list of clips assembled in input order (a
successful run, positive reference rate), the timeline records are
contiguous -- record `j`'s `End` equals record `j+1`'s `Start` -- and each
record's `Start` is the cursor value before that clip divided by the
reference rate. -/
theorem timeline_contiguous (inputs : List (List Char × IntBuffer))
    (loops : List (List Char)) (r : RunResult) (j : Nat)
    (hok : runSprite inputs loops = Except.ok r)
    (hrate : 0 < firstRate inputs)
    (hj : j + 1 < r.records.length) :
    (r.records.getD j ([], default)).2.End =
      (r.records.getD (j + 1) ([], default)).2.Start ∧
    (r.records.getD j ([], default)).2.Start =
      (cursorBefore inputs j : ℚ) / (firstRate inputs : ℚ) := by
  obtain ⟨hne, hrates⟩ := runSprite_ok_inv inputs loops r hok
  match inputs with
  | x :: xs =>
      have hxs : ∀ y ∈ xs, y.2.format.sampleRate = x.2.format.sampleRate := by
        intro y hy
        simpa [firstRate] using hrates y (List.mem_cons_of_mem x hy)
      rw [runSprite_ok loops x xs hxs] at hok
      have hr := Except.ok.inj hok
      subst hr
      simp only [mkRecords_length] at hj
      have h1 := mkRecords_getD loops x.2.format.sampleRate (x :: xs) 0 j
        (Nat.lt_of_succ_lt hj) ([], default) ([], default)
      have h2 := mkRecords_getD loops x.2.format.sampleRate (x :: xs) 0 (j + 1)
        hj ([], default) ([], default)
      refine ⟨?_, ?_⟩
      · rw [h1, h2]
      · rw [h1]
        simp [firstRate]

deriving instance DecidableEq for Except

/-- A concrete two-clip input list (mono, rate 2 Hz, 1 and 2 samples). -/
def w1Inputs : List (List Char × IntBuffer) :=
  [("a.wav".toList,
     { format := { numChannels := 1, sampleRate := 2 }, data := [0], sourceBitDepth := 8 }),
   ("b.wav".toList,
     { format := { numChannels := 1, sampleRate := 2 }, data := [1, 2], sourceBitDepth := 8 })]

/-- The result `runSprite w1Inputs []` evaluates to. -/
def w1Res : RunResult :=
  { outData := [0, 1, 2]
    outFormat := { numChannels := 1, sampleRate := 2 }
    outSourceBitDepth := 8
    sampleRate := 2
    currentSample := 3
    spritemap := [("a".toList, { Start := 0, End := 1/2, Loop := false }),
                  ("b".toList, { Start := 1/2, End := 3/2, Loop := false })]
    records := [("a".toList, { Start := 0, End := 1/2, Loop := false }),
                ("b".toList, { Start := 1/2, End := 3/2, Loop := false })]
    encSampleRate := 2
    encBitDepth := 8
    encNumChannels := 1 }

/-- The concrete run used by several witnesses: `runSprite w1Inputs []`
evaluates to `w1Res`. -/
theorem w1_run_eq : runSprite w1Inputs [] = Except.ok w1Res := by
  simp only [runSprite, loopClips, processClip, w1Inputs, w1Res]
  norm_num [mapSet, fileKey, baseName, extName, frameCount]
  simp +decide [List.takeWhile]

/-- Witness for `timeline_contiguous` at the two-clip run `w1Inputs`. -/
theorem timeline_contiguous_witness :
    runSprite w1Inputs [] = Except.ok w1Res ∧ 0 < firstRate w1Inputs ∧
      0 + 1 < w1Res.records.length ∧
      ((w1Res.records.getD 0 ([], default)).2.End =
          (w1Res.records.getD (0 + 1) ([], default)).2.Start ∧
        (w1Res.records.getD 0 ([], default)).2.Start =
          (cursorBefore w1Inputs 0 : ℚ) / (firstRate w1Inputs : ℚ)) :=
  ⟨w1_run_eq, by decide, by decide,
    timeline_contiguous w1Inputs [] w1Res 0 w1_run_eq (by decide) (by decide)⟩

theorem sum_div_of_dvd (ch : Nat) (l : List Nat) (h : ∀ a ∈ l, ch ∣ a) :
    (l.map (fun a => a / ch)).sum = l.sum / ch := by
  induction l with
  | nil => simp
  | cons a l ih =>
      have ha : ch ∣ a := h a (List.mem_cons_self a l)
      have hl : ∀ b ∈ l, ch ∣ b := fun b hb => h b (List.mem_cons_of_mem a hb)
      simp only [List.map_cons, List.sum_cons, ih hl,
        Nat.add_div_of_dvd_right ha]

/-- C2: for every successful run (positive reference rate), the first
record's `Start` is exactly 0 and the last record's `End` is the final
cursor -- the total per-channel sample count, `Σ len(dataᵢ)/channelsᵢ` --
divided by the reference rate; when moreover every clip carries the
reference channel count and its sample count divides evenly, that cursor is
exactly the output frame count `len(outData) / channels`. -/
theorem first_start_zero_last_end_total (inputs : List (List Char × IntBuffer))
    (loops : List (List Char)) (r : RunResult)
    (hok : runSprite inputs loops = Except.ok r)
    (hrate : 0 < firstRate inputs) :
    (r.records.getD 0 ([], default)).2.Start = 0 ∧
    (r.records.getD (r.records.length - 1) ([], default)).2.End =
      ((inputs.map (fun x => frameCount x.2)).sum : ℚ) / (firstRate inputs : ℚ) ∧
    ((∀ y ∈ inputs, y.2.format.numChannels = r.outFormat.numChannels ∧
        y.2.format.numChannels ∣ y.2.data.length) →
      (inputs.map (fun x => frameCount x.2)).sum =
        r.outData.length / r.outFormat.numChannels) := by
  obtain ⟨hne, hrates⟩ := runSprite_ok_inv inputs loops r hok
  match inputs with
  | x :: xs =>
      have hxs : ∀ y ∈ xs, y.2.format.sampleRate = x.2.format.sampleRate := by
        intro y hy
        simpa [firstRate] using hrates y (List.mem_cons_of_mem x hy)
      rw [runSprite_ok loops x xs hxs] at hok
      have hr := Except.ok.inj hok
      subst hr
      have hlen : (0 : Nat) < (x :: xs).length := by simp
      refine ⟨?_, ?_, ?_⟩
      · rw [mkRecords_getD loops x.2.format.sampleRate (x :: xs) 0 0 hlen
          ([], default) ([], default)]
        simp [cursorBefore]
      · have hlast : (x :: xs).length - 1 < (x :: xs).length :=
          Nat.sub_lt hlen Nat.one_pos
        rw [mkRecords_length]
        rw [mkRecords_getD loops x.2.format.sampleRate (x :: xs) 0
          ((x :: xs).length - 1) hlast ([], default) ([], default)]
        have hsucc : (x :: xs).length - 1 + 1 = (x :: xs).length := by
          omega
        rw [hsucc, cursorBefore_length]
        simp [firstRate]
      · intro hch
        have hchs : ∀ y ∈ x :: xs, y.2.format.numChannels = x.2.format.numChannels :=
          fun y hy => (hch y hy).1
        have hmap : ((x :: xs).map (fun y => frameCount y.2)) =
            ((x :: xs).map (fun y => y.2.data.length)).map
              (fun a => a / x.2.format.numChannels) := by
          rw [List.map_map]
          refine List.map_congr_left ?_
          intro y hy
          simp [frameCount, Function.comp, hchs y hy]
        rw [hmap, sum_div_of_dvd]
        · simp [List.length_flatten, List.map_map, Function.comp_def]
        · intro a ha
          obtain ⟨y, hy, rfl⟩ := List.mem_map.mp ha
          rcases hch y hy with ⟨h1, h2⟩
          rw [← h1]
          exact h2

/-- Witness for `first_start_zero_last_end_total` at the run `w1Inputs`. -/
theorem first_start_zero_last_end_total_witness :
    runSprite w1Inputs [] = Except.ok w1Res ∧ 0 < firstRate w1Inputs ∧
      ((w1Res.records.getD 0 ([], default)).2.Start = 0 ∧
        (w1Res.records.getD (w1Res.records.length - 1) ([], default)).2.End =
          ((w1Inputs.map (fun x => frameCount x.2)).sum : ℚ) /
            (firstRate w1Inputs : ℚ) ∧
        ((∀ y ∈ w1Inputs, y.2.format.numChannels = w1Res.outFormat.numChannels ∧
            y.2.format.numChannels ∣ y.2.data.length) →
          (w1Inputs.map (fun x => frameCount x.2)).sum =
            w1Res.outData.length / w1Res.outFormat.numChannels)) :=
  ⟨w1_run_eq, by decide,
    first_start_zero_last_end_total w1Inputs [] w1Res w1_run_eq (by decide)⟩

/-- A mono clip at rate 2 with one sample `5`. -/
def dupB1 : IntBuffer :=
  { format := { numChannels := 1, sampleRate := 2 }, data := [5], sourceBitDepth := 8 }

/-- A mono clip at rate 2 with one sample `6`. -/
def dupB2 : IntBuffer :=
  { format := { numChannels := 1, sampleRate := 2 }, data := [6], sourceBitDepth := 8 }

/-- Two distinct input identifiers, `a/x.wav` and `b/x.wav`, that normalize
to the same logical name `x`. -/
def dupInputs : List (List Char × IntBuffer) :=
  [("a/x.wav".toList, dupB1), ("b/x.wav".toList, dupB2)]

/-- The result `runSprite dupInputs []` evaluates to: the run SUCCEEDS and
the second clip's entry has overwritten the first under the key `x`. -/
def dupRes : RunResult :=
  { outData := [5, 6]
    outFormat := { numChannels := 1, sampleRate := 2 }
    outSourceBitDepth := 8
    sampleRate := 2
    currentSample := 2
    spritemap := [("x".toList, { Start := 1/2, End := 1, Loop := false })]
    records := [("x".toList, { Start := 0, End := 1/2, Loop := false }),
                ("x".toList, { Start := 1/2, End := 1, Loop := false })]
    encSampleRate := 2
    encBitDepth := 8
    encNumChannels := 1 }

theorem dup_run_eq : runSprite dupInputs [] = Except.ok dupRes := by
  simp only [runSprite, loopClips, processClip, dupInputs, dupB1, dupB2, dupRes]
  norm_num [mapSet, fileKey, baseName, extName, frameCount]
  simp +decide [List.takeWhile]

/-- Counterexample to C3: the two distinct identifiers `a/x.wav` and
`b/x.wav` normalize to the same logical name, yet assembly does NOT fail --
it succeeds, and the spritemap holds a single entry for the shared key. -/
theorem duplicate_key_no_failure :
    "a/x.wav".toList ≠ "b/x.wav".toList ∧
    fileKey "a/x.wav".toList = fileKey "b/x.wav".toList ∧
    runSprite dupInputs [] = Except.ok dupRes ∧
    dupRes.spritemap.length = 1 :=
  ⟨by decide, by decide, dup_run_eq, by decide⟩

/-- C3 (amended): when two input identifiers normalize to the same logical
name, assembly does not fail; the second clip's entry silently overwrites
the first in the spritemap (last write wins), while both clips' samples stay
in the output buffer, which ends with a single entry under the shared key
carrying the second clip's interval. -/
theorem duplicate_key_overwrites (loops : List (List Char)) (p q : List Char)
    (b1 b2 : IntBuffer) (hk : fileKey p = fileKey q)
    (hr : b2.format.sampleRate = b1.format.sampleRate) :
    runSprite [(p, b1), (q, b2)] loops =
      Except.ok
        { outData := b1.data ++ b2.data
          outFormat := b1.format
          outSourceBitDepth := b1.sourceBitDepth
          sampleRate := b1.format.sampleRate
          currentSample := frameCount b1 + frameCount b2
          spritemap := [(fileKey q,
            { Start := (frameCount b1 : ℚ) / (b1.format.sampleRate : ℚ)
              End := ((frameCount b1 + frameCount b2 : Nat) : ℚ) /
                (b1.format.sampleRate : ℚ)
              Loop := loops.contains (baseName q) })]
          records := [(fileKey p,
            { Start := 0
              End := (frameCount b1 : ℚ) / (b1.format.sampleRate : ℚ)
              Loop := loops.contains (baseName p) }),
            (fileKey q,
            { Start := (frameCount b1 : ℚ) / (b1.format.sampleRate : ℚ)
              End := ((frameCount b1 + frameCount b2 : Nat) : ℚ) /
                (b1.format.sampleRate : ℚ)
              Loop := loops.contains (baseName q) })]
          encSampleRate := b1.format.sampleRate
          encBitDepth := b1.sourceBitDepth
          encNumChannels := b1.format.numChannels } := by
  rw [runSprite_ok loops (p, b1) [(q, b2)]
    (by intro y hy; simp only [List.mem_singleton] at hy; subst hy; exact hr)]
  simp [mkRecords, mapSets, mapSet, hk, frameCount]

/-- Witness for `duplicate_key_overwrites` at the concrete pair
`a/x.wav`, `b/x.wav`. -/
theorem duplicate_key_overwrites_witness :
    fileKey "a/x.wav".toList = fileKey "b/x.wav".toList ∧
    dupB2.format.sampleRate = dupB1.format.sampleRate ∧
    runSprite [("a/x.wav".toList, dupB1), ("b/x.wav".toList, dupB2)] [] =
      Except.ok
        { outData := dupB1.data ++ dupB2.data
          outFormat := dupB1.format
          outSourceBitDepth := dupB1.sourceBitDepth
          sampleRate := dupB1.format.sampleRate
          currentSample := frameCount dupB1 + frameCount dupB2
          spritemap := [(fileKey "b/x.wav".toList,
            { Start := (frameCount dupB1 : ℚ) / (dupB1.format.sampleRate : ℚ)
              End := ((frameCount dupB1 + frameCount dupB2 : Nat) : ℚ) /
                (dupB1.format.sampleRate : ℚ)
              Loop := List.contains [] (baseName "b/x.wav".toList) })]
          records := [(fileKey "a/x.wav".toList,
            { Start := 0
              End := (frameCount dupB1 : ℚ) / (dupB1.format.sampleRate : ℚ)
              Loop := List.contains [] (baseName "a/x.wav".toList) }),
            (fileKey "b/x.wav".toList,
            { Start := (frameCount dupB1 : ℚ) / (dupB1.format.sampleRate : ℚ)
              End := ((frameCount dupB1 + frameCount dupB2 : Nat) : ℚ) /
                (dupB1.format.sampleRate : ℚ)
              Loop := List.contains [] (baseName "b/x.wav".toList) })]
          encSampleRate := dupB1.format.sampleRate
          encBitDepth := dupB1.sourceBitDepth
          encNumChannels := dupB1.format.numChannels } :=
  ⟨by decide, by decide,
    duplicate_key_overwrites [] "a/x.wav".toList "b/x.wav".toList dupB1 dupB2
      (by decide) (by decide)⟩

/-- `true` iff the run completes without a fatal error. -/
def runOk (inputs : List (List Char × IntBuffer))
    (loops : List (List Char)) : Bool :=
  match runSprite inputs loops with
  | Except.ok _ => true
  | Except.error _ => false

/-- A mono clip at rate 2 (1 channel). -/
def chB1 : IntBuffer :=
  { format := { numChannels := 1, sampleRate := 2 }, data := [0], sourceBitDepth := 8 }

/-- A stereo clip at rate 2 (2 channels): its channel count differs from
`chB1`'s. -/
def chB2 : IntBuffer :=
  { format := { numChannels := 2, sampleRate := 2 }, data := [1, 2, 3, 4], sourceBitDepth := 8 }

/-- Two clips with equal sample rates but different channel counts. -/
def chInputs : List (List Char × IntBuffer) :=
  [("a.wav".toList, chB1), ("b.wav".toList, chB2)]

/-- The result `runSprite chInputs []` evaluates to: the mismatching-channel
clip is accepted and appended. -/
def chRes : RunResult :=
  { outData := [0, 1, 2, 3, 4]
    outFormat := { numChannels := 1, sampleRate := 2 }
    outSourceBitDepth := 8
    sampleRate := 2
    currentSample := 3
    spritemap := [("a".toList, { Start := 0, End := 1/2, Loop := false }),
                  ("b".toList, { Start := 1/2, End := 3/2, Loop := false })]
    records := [("a".toList, { Start := 0, End := 1/2, Loop := false }),
                ("b".toList, { Start := 1/2, End := 3/2, Loop := false })]
    encSampleRate := 2
    encBitDepth := 8
    encNumChannels := 1 }

theorem ch_run_eq : runSprite chInputs [] = Except.ok chRes := by
  simp only [runSprite, loopClips, processClip, chInputs, chB1, chB2, chRes]
  norm_num [mapSet, fileKey, baseName, extName, frameCount]
  simp +decide [List.takeWhile]

/-- Counterexample to C4: the second clip's channel count (2) differs from
the reference format's (1), yet assembly succeeds -- there is no
`ChannelMismatch` failure in the code. -/
theorem channel_mismatch_no_failure :
    chB2.format.numChannels ≠ chB1.format.numChannels ∧
    runSprite chInputs [] = Except.ok chRes :=
  ⟨by decide, ch_run_eq⟩

/-- C4 (amended): the code never checks channel counts: a second clip whose
channel count differs from the reference format's is accepted, and the run
succeeds whenever the sample rates agree. -/
theorem channel_mismatch_accepted (loops : List (List Char))
    (p q : List Char) (b1 b2 : IntBuffer)
    (hr : b2.format.sampleRate = b1.format.sampleRate)
    (hch : b2.format.numChannels ≠ b1.format.numChannels) :
    runOk [(p, b1), (q, b2)] loops = true := by
  rw [runOk, runSprite_ok loops (p, b1) [(q, b2)]
    (by intro y hy; simp only [List.mem_singleton] at hy; subst hy; exact hr)]

/-- Witness for `channel_mismatch_accepted` at the concrete pair `chInputs`. -/
theorem channel_mismatch_accepted_witness :
    chB2.format.sampleRate = chB1.format.sampleRate ∧
    chB2.format.numChannels ≠ chB1.format.numChannels ∧
    runOk [("a.wav".toList, chB1), ("b.wav".toList, chB2)] [] = true :=
  ⟨by decide, by decide,
    channel_mismatch_accepted [] "a.wav".toList "b.wav".toList chB1 chB2
      (by decide) (by decide)⟩

/-- A stereo clip at rate 2 whose interleaved sample count (3) is not
divisible by its channel count (2). -/
def mbB : IntBuffer :=
  { format := { numChannels := 2, sampleRate := 2 }, data := [0, 1, 2], sourceBitDepth := 8 }

/-- A single-clip input list with a non-divisible sample count. -/
def mbInputs : List (List Char × IntBuffer) :=
  [("a.wav".toList, mbB)]

/-- The result `runSprite mbInputs []` evaluates to: the odd sample count is
accepted, the cursor advances by `3 / 2 = 1`. -/
def mbRes : RunResult :=
  { outData := [0, 1, 2]
    outFormat := { numChannels := 2, sampleRate := 2 }
    outSourceBitDepth := 8
    sampleRate := 2
    currentSample := 1
    spritemap := [("a".toList, { Start := 0, End := 1/2, Loop := false })]
    records := [("a".toList, { Start := 0, End := 1/2, Loop := false })]
    encSampleRate := 2
    encBitDepth := 8
    encNumChannels := 2 }

theorem mb_run_eq : runSprite mbInputs [] = Except.ok mbRes := by
  simp only [runSprite, loopClips, processClip, mbInputs, mbB, mbRes]
  norm_num [mapSet, fileKey, baseName, extName, frameCount]
  simp +decide [List.takeWhile]

/-- Counterexample to C5: a clip whose interleaved sample count (3) is not
evenly divisible by its channel count (2) does NOT make assembly fail --
the run succeeds and the cursor advances by the floored quotient 1. -/
theorem malformed_buffer_no_failure :
    mbB.data.length % mbB.format.numChannels ≠ 0 ∧
    runSprite mbInputs [] = Except.ok mbRes ∧
    mbRes.currentSample = 1 :=
  ⟨by decide, mb_run_eq, by decide⟩

/-- C5 (amended): for each clip the cursor advances by
`len(clip.Data) / clip.NumChannels` using flooring integer division; a
sample count that is not evenly divisible is not rejected (the remainder is
silently dropped from the cursor), and every interleaved sample is still
appended to the output. -/
theorem cursor_advance_floor (inputs : List (List Char × IntBuffer))
    (loops : List (List Char)) (r : RunResult)
    (hok : runSprite inputs loops = Except.ok r) :
    r.currentSample =
      (inputs.map (fun x => x.2.data.length / x.2.format.numChannels)).sum ∧
    r.outData.length = (inputs.map (fun x => x.2.data.length)).sum := by
  obtain ⟨hne, hrates⟩ := runSprite_ok_inv inputs loops r hok
  match inputs with
  | x :: xs =>
      have hxs : ∀ y ∈ xs, y.2.format.sampleRate = x.2.format.sampleRate := by
        intro y hy
        simpa [firstRate] using hrates y (List.mem_cons_of_mem x hy)
      rw [runSprite_ok loops x xs hxs] at hok
      have hr := Except.ok.inj hok
      subst hr
      constructor
      · simp [frameCount]
      · simp [List.length_flatten, List.map_map, Function.comp_def]

/-- Witness for `cursor_advance_floor` at the non-divisible run `mbInputs`. -/
theorem cursor_advance_floor_witness :
    runSprite mbInputs [] = Except.ok mbRes ∧
    (mbRes.currentSample =
        (mbInputs.map (fun x => x.2.data.length / x.2.format.numChannels)).sum ∧
      mbRes.outData.length = (mbInputs.map (fun x => x.2.data.length)).sum) :=
  ⟨mb_run_eq, cursor_advance_floor mbInputs [] mbRes mb_run_eq⟩

/-- A mono clip at rate 2, used under the path `attack.wav`. -/
def lpB : IntBuffer :=
  { format := { numChannels := 1, sampleRate := 2 }, data := [0], sourceBitDepth := 8 }

/-- A single clip named `attack.wav`. -/
def lpInputs : List (List Char × IntBuffer) :=
  [("attack.wav".toList, lpB)]

/-- A loop set naming the base filename `attack.wav` (as the `-loops` flag
does), while the clip's logical name is `attack`. -/
def lpLoops : List (List Char) :=
  ["attack.wav".toList]

/-- The result `runSprite lpInputs lpLoops` evaluates to. -/
def lpRes : RunResult :=
  { outData := [0]
    outFormat := { numChannels := 1, sampleRate := 2 }
    outSourceBitDepth := 8
    sampleRate := 2
    currentSample := 1
    spritemap := [("attack".toList, { Start := 0, End := 1/2, Loop := true })]
    records := [("attack".toList, { Start := 0, End := 1/2, Loop := true })]
    encSampleRate := 2
    encBitDepth := 8
    encNumChannels := 1 }

theorem lp_run_eq : runSprite lpInputs lpLoops = Except.ok lpRes := by
  simp only [runSprite, loopClips, processClip, lpInputs, lpB, lpLoops, lpRes]
  norm_num [mapSet, fileKey, baseName, extName, frameCount]
  simp +decide [List.takeWhile]

/-- Counterexample to C6: with loop set `{attack.wav}`, the clip
`attack.wav` has logical name `attack`, which is NOT a member of the loop
set -- yet its recorded entry carries `Loop = true`: the code keys loop
membership on the base filename (extension kept), not the logical name. -/
theorem loop_flag_not_logical_name :
    lpLoops.contains (fileKey "attack.wav".toList) = false ∧
    runSprite lpInputs lpLoops = Except.ok lpRes ∧
    (lpRes.records.getD 0 ([], default)).2.Loop = true :=
  ⟨by decide, lp_run_eq, by decide⟩

/-- C6 (amended): record `j`'s `Loop` flag is true iff the clip's base
filename (final path component, extension retained -- `filepath.Base`, not
the extension-stripped logical name) is a member of the loop set. -/
theorem loop_flag_from_base_filename (inputs : List (List Char × IntBuffer))
    (loops : List (List Char)) (r : RunResult) (j : Nat)
    (hok : runSprite inputs loops = Except.ok r)
    (hj : j < r.records.length) :
    (r.records.getD j ([], default)).2.Loop =
      loops.contains (baseName (inputs.getD j ([], default)).1) := by
  obtain ⟨hne, hrates⟩ := runSprite_ok_inv inputs loops r hok
  match inputs with
  | x :: xs =>
      have hxs : ∀ y ∈ xs, y.2.format.sampleRate = x.2.format.sampleRate := by
        intro y hy
        simpa [firstRate] using hrates y (List.mem_cons_of_mem x hy)
      rw [runSprite_ok loops x xs hxs] at hok
      have hr := Except.ok.inj hok
      subst hr
      simp only [mkRecords_length] at hj
      rw [mkRecords_getD loops x.2.format.sampleRate (x :: xs) 0 j hj
        ([], default) ([], default)]

/-- Witness for `loop_flag_from_base_filename` at the run `lpInputs`. -/
theorem loop_flag_from_base_filename_witness :
    runSprite lpInputs lpLoops = Except.ok lpRes ∧ 0 < lpRes.records.length ∧
      (lpRes.records.getD 0 ([], default)).2.Loop =
        lpLoops.contains (baseName (lpInputs.getD 0 ([], default)).1) :=
  ⟨lp_run_eq, by decide,
    loop_flag_from_base_filename lpInputs lpLoops lpRes 0 lp_run_eq (by decide)⟩

/-- C7: an empty input list is rejected before the assembly loop runs: the
run fails with the `noClips` rejection and produces no output samples and no
timeline entries (no `RunResult` at all). -/
theorem empty_input_rejected (loops : List (List Char)) :
    runSprite [] loops = Except.error AssemblyError.noClips := by
  simp [runSprite]

/-- C9: a successful run leaves the output buffer's format metadata equal to
the first clip's format for the whole run -- only the sample data and the
cursor change -- and the encoder is invoked with exactly the first clip's
sample rate, source bit depth and channel count; the output data is exactly
the concatenation of the clips' samples. -/
theorem format_metadata_preserved (inputs : List (List Char × IntBuffer))
    (loops : List (List Char)) (r : RunResult) (x : List Char × IntBuffer)
    (xs : List (List Char × IntBuffer))
    (hin : inputs = x :: xs)
    (hok : runSprite inputs loops = Except.ok r) :
    r.outFormat = x.2.format ∧
    r.outSourceBitDepth = x.2.sourceBitDepth ∧
    r.sampleRate = x.2.format.sampleRate ∧
    r.encSampleRate = x.2.format.sampleRate ∧
    r.encBitDepth = x.2.sourceBitDepth ∧
    r.encNumChannels = x.2.format.numChannels ∧
    r.outData = ((x :: xs).map (fun y => y.2.data)).flatten := by
  subst hin
  obtain ⟨hne, hrates⟩ := runSprite_ok_inv (x :: xs) loops r hok
  have hxs : ∀ y ∈ xs, y.2.format.sampleRate = x.2.format.sampleRate := by
    intro y hy
    simpa [firstRate] using hrates y (List.mem_cons_of_mem x hy)
  rw [runSprite_ok loops x xs hxs] at hok
  have hr := Except.ok.inj hok
  subst hr
  exact ⟨rfl, rfl, rfl, rfl, rfl, rfl, rfl⟩

/-- Witness for `format_metadata_preserved` at the run `w1Inputs`. -/
theorem format_metadata_preserved_witness :
    w1Inputs = ("a.wav".toList,
      { format := { numChannels := 1, sampleRate := 2 }, data := [0],
        sourceBitDepth := 8 }) ::
      [("b.wav".toList,
        { format := { numChannels := 1, sampleRate := 2 }, data := [1, 2],
          sourceBitDepth := 8 })] ∧
    runSprite w1Inputs [] = Except.ok w1Res ∧
    (w1Res.outFormat = { numChannels := 1, sampleRate := 2 } ∧
      w1Res.outSourceBitDepth = 8 ∧
      w1Res.sampleRate = 2 ∧
      w1Res.encSampleRate = 2 ∧
      w1Res.encBitDepth = 8 ∧
      w1Res.encNumChannels = 1 ∧
      w1Res.outData = [0, 1, 2]) :=
  ⟨by decide, w1_run_eq, by
    have h := format_metadata_preserved w1Inputs [] w1Res
      ("a.wav".toList,
        { format := { numChannels := 1, sampleRate := 2 }, data := [0],
          sourceBitDepth := 8 })
      [("b.wav".toList,
        { format := { numChannels := 1, sampleRate := 2 }, data := [1, 2],
          sourceBitDepth := 8 })] (by decide) w1_run_eq
    simpa using h⟩

/-! ## The resampling variant: temporary-file lifecycle

The second variant of `main` reconciles a sample-rate mismatch by invoking
ffmpeg to produce a resampled temporary WAV file, registering
`defer os.Remove(tmpResampled)`, and re-decoding the temporary file.  In Go,
deferred functions run when the surrounding function returns -- but
`log.Fatalf` calls `os.Exit(1)`, and `os.Exit` terminates the process
WITHOUT running deferred functions.  The definitions below embed the loop's
control flow together with that defer/exit semantics; the spritemap
bookkeeping is as in the plain variant above and does not influence the
control flow or the file lifecycle. -/

/-- Per-input oracle for the resampling variant: the decoded buffer for
`decodeWAV(infile)` (`none` = the decode fails and `log.Fatalf` fires),
whether the ffmpeg resample subprocess succeeds, and the decoded buffer for
`decodeWAV(tmpResampled)` of the resampled temporary file. -/
structure ClipSpec where
  path : List Char
  decodeResult : Option IntBuffer
  resampleOk : Bool
  tmpDecodeResult : Option IntBuffer

/-- The temporary filename `fmt.Sprintf("%s_resampled_%d.wav", input, rate)`
produced by `ffmpegResample`. -/
def tempName (input : List Char) (rate : Nat) : List Char :=
  input ++ "_resampled_".toList ++ (toString rate).toList ++ ".wav".toList

/-- Loop state of the resampling variant, extended with the resource-model
fields: the temporary files created so far and the pending deferred
`os.Remove` calls. -/
structure ResampleState where
  outBuf : Option IntBuffer
  targetRate : Nat
  currentSample : Nat
  tempsCreated : List (List Char)
  deferredRemovals : List (List Char)

/-- Append a decoded clip to the output buffer and advance the cursor
(common tail of the resampling variant's loop body). -/
def appendClip (st : ResampleState) (ob : IntBuffer) (buf : IntBuffer) :
    ResampleState :=
  { st with
      outBuf := some { ob with data := ob.data ++ buf.data }
      currentSample := st.currentSample + buf.data.length / buf.format.numChannels }

/-- One iteration of the resampling variant's loop body.  The returned
`Bool` is `true` when the iteration hits a `log.Fatalf` (decode failure,
resample failure, or failure to decode the resampled temporary file) and the
process exits.  On a rate mismatch with a successful resample, the temporary
file is created and its removal deferred before the re-decode is attempted. -/
def stepResample (st : ResampleState) (c : ClipSpec) : ResampleState × Bool :=
  match c.decodeResult with
  | none => (st, true)
  | some buf0 =>
      match st.outBuf with
      | none =>
          let ob : IntBuffer :=
            { format := buf0.format, data := [], sourceBitDepth := buf0.sourceBitDepth }
          (appendClip
            { st with outBuf := some ob, targetRate := buf0.format.sampleRate }
            ob buf0, false)
      | some ob =>
          if buf0.format.sampleRate ≠ st.targetRate then
            if c.resampleOk then
              let tmp := tempName c.path st.targetRate
              let st' :=
                { st with
                    tempsCreated := st.tempsCreated ++ [tmp]
                    deferredRemovals := tmp :: st.deferredRemovals }
              match c.tmpDecodeResult with
              | none => (st', true)
              | some buf1 => (appendClip st' ob buf1, false)
            else (st, true)
          else (appendClip st ob buf0, false)

/-- The resampling variant's input loop; a fatal iteration aborts the rest. -/
def runResampleLoop (st : ResampleState) :
    List ClipSpec → ResampleState × Bool
  | [] => (st, false)
  | c :: cs =>
      match stepResample st c with
      | (st', true) => (st', true)
      | (st', false) => runResampleLoop st' cs

/-- What the run leaves behind: whether it terminated through
`log.Fatalf`/`os.Exit`, and which temporary files still exist on disk at
process exit. -/
structure TempOutcome where
  fatalExit : Bool
  leftoverTemps : List (List Char)
  deriving DecidableEq

/-- The resampling variant's run, focused on the temporary-file lifecycle:
on a `log.Fatalf` the process calls `os.Exit(1)`, which terminates WITHOUT
running the deferred `os.Remove` calls, so every temporary file created so
far remains on disk; when `main` returns normally, the deferred removals run
and delete the files they name. -/
def runResample (clips : List ClipSpec) : TempOutcome :=
  let init : ResampleState :=
    { outBuf := none, targetRate := 0, currentSample := 0,
      tempsCreated := [], deferredRemovals := [] }
  match runResampleLoop init clips with
  | (st, true) => { fatalExit := true, leftoverTemps := st.tempsCreated }
  | (st, false) =>
      { fatalExit := false
        leftoverTemps :=
          st.tempsCreated.filter (fun t => !(st.deferredRemovals.contains t)) }

/-- First input of the failing scenario: decodes fine at rate 2. -/
def c8Clip1 : ClipSpec :=
  { path := "a.wav".toList
    decodeResult := some
      { format := { numChannels := 1, sampleRate := 2 }, data := [0], sourceBitDepth := 8 }
    resampleOk := true
    tmpDecodeResult := none }

/-- Second input of the failing scenario: rate 3 mismatches the reference
rate 2, the ffmpeg resample succeeds (creating the temporary file), but
decoding the resampled file fails, so `log.Fatalf` fires. -/
def c8Clip2 : ClipSpec :=
  { path := "b.wav".toList
    decodeResult := some
      { format := { numChannels := 1, sampleRate := 3 }, data := [1], sourceBitDepth := 8 }
    resampleOk := true
    tmpDecodeResult := none }

/-- Same second input, but the resampled file decodes fine (rate 2). -/
def c8Clip2ok : ClipSpec :=
  { path := "b.wav".toList
    decodeResult := some
      { format := { numChannels := 1, sampleRate := 3 }, data := [1], sourceBitDepth := 8 }
    resampleOk := true
    tmpDecodeResult := some
      { format := { numChannels := 1, sampleRate := 2 }, data := [1], sourceBitDepth := 8 } }

/-- C8: the temporary file is NOT removed on every exit path.  In the
failing scenario the temporary `b.wav_resampled_2.wav` has been created and
its removal deferred, but the run ends through `log.Fatalf`/`os.Exit`, which
skips deferred functions: the file is left on disk.  On the success path of
the same inputs the deferred removals do run and no temporary file remains
-- the cleanup intent is visible in the code but fails on error paths. -/
theorem temp_file_left_on_fatal_exit :
    runResample [c8Clip1, c8Clip2] =
      { fatalExit := true, leftoverTemps := ["b.wav_resampled_2.wav".toList] } ∧
    "b.wav_resampled_2.wav".toList = tempName "b.wav".toList 2 ∧
    runResample [c8Clip1, c8Clip2ok] =
      { fatalExit := false, leftoverTemps := [] } := by
  refine ⟨?_, ?_, ?_⟩ <;> decide
